/-
Verification of Source/cmLoadCommandCommand.cxx (the load_command
implementation): a shallow embedding of the fault-boundary guard, the
loaded-command table and its lifecycle, the command proxy's immediate
pass, the load-directive handler, and shared-ownership reference
counting, with theorems settling the specification claims.
-/
import Mathlib

namespace LoadCommand

/-! ## Fault Boundary: `SignalHandlerGuard` (cmLoadCommandCommand.cxx lines 29-63)

The guard constructor sets the process-global `LastName` and installs
`TrapsForSignals` for SIGSEGV, SIGBUS (where available) and SIGILL via
`signal(sig, TrapsForSignals)`; the destructor executes
`signal(sig, nullptr)` for the same signals.  On POSIX platforms the null
handler constant is `SIG_DFL`, the default disposition.  The constructor
discards the previous handlers returned by `signal`, so no prior handler
is ever saved. -/

/-- Disposition of one signal: the default disposition (`SIG_DFL`, what
`signal(sig, nullptr)` installs), the `TrapsForSignals` diagnostic handler,
or an arbitrary host-installed handler identified by a tag. -/
inductive Handler where
  | dfl
  | trapsForSignals
  | custom (id : Nat)
  deriving Repr, DecidableEq

/-- Process-global signal state touched by `SignalHandlerGuard`: the
dispositions of the three fault-class signals and the global `LastName`
pointer (line 31, initially null). -/
structure SignalState where
  segv : Handler
  bus : Handler
  ill : Handler
  lastName : Option String
  deriving Repr, DecidableEq

/-- Tag recorded in `LastName` by the guard constructor (line 43):
`name != nullptr ? name : "????"`. -/
def guardTag (name : Option String) : String := name.getD "????"

/-- Embeds `SignalHandlerGuard::SignalHandlerGuard(name)` (lines 41-50): set
`LastName`, install `TrapsForSignals` for SIGSEGV, SIGBUS, SIGILL.  The
return values of `signal` (the previous handlers) are discarded. -/
def guardEnter (name : Option String) (s : SignalState) : SignalState :=
  { s with
    lastName := some (guardTag name)
    segv := Handler.trapsForSignals
    bus := Handler.trapsForSignals
    ill := Handler.trapsForSignals }

/-- Embeds `SignalHandlerGuard::~SignalHandlerGuard()` (lines 52-59):
`signal(sig, nullptr)` for each fault-class signal, i.e. reset each
disposition to the default; nothing is read back from the constructor. -/
def guardExit (s : SignalState) : SignalState :=
  { s with segv := Handler.dfl, bus := Handler.dfl, ill := Handler.dfl }

/-- One guarded foreign call's effect on signal state: the guard is
constructed, the call runs (a trap executes `TrapsForSignals`, which
changes no disposition, and returns), and the guard's destructor runs at
scope exit whether the call returned normally or via the fault path. -/
def withGuard (name : Option String) (s : SignalState) : SignalState :=
  guardExit (guardEnter name s)

/-! Claim C2 theorems. -/

/-- C2 counterexample: the claim that the previously-installed handlers
are restored on guard exit is false.  Starting from a state whose SIGSEGV
handler is a host-installed custom handler, after a guarded call the
SIGSEGV disposition is the default disposition, not the prior handler —
the destructor executes `signal(SIGSEGV, nullptr)` and the constructor
never saved the old handler. -/
theorem guard_restore_counterexample :
    (withGuard (some "cmd")
        { segv := Handler.custom 7, bus := Handler.custom 8,
          ill := Handler.custom 9, lastName := none }).segv = Handler.dfl ∧
    (withGuard (some "cmd")
        { segv := Handler.custom 7, bus := Handler.custom 8,
          ill := Handler.custom 9, lastName := none }).segv ≠ Handler.custom 7 := by
  decide

/-- C2 (amended): for every foreign call executed under the fault
boundary, when the guarded call returns — normally or via the fault path —
the dispositions of all fault-class signals (SIGSEGV, SIGBUS where
available, SIGILL) are reset to the default disposition, regardless of
which handlers were installed before the guard was entered; the previous
handlers are not saved and not restored. -/
theorem guard_resets_handlers_to_default (name : Option String) (s : SignalState) :
    (withGuard name s).segv = Handler.dfl ∧
    (withGuard name s).bus = Handler.dfl ∧
    (withGuard name s).ill = Handler.dfl := by
  refine ⟨rfl, rfl, rfl⟩

/-! ## Loaded command table and error buffer
(cmLoadCommandCommand.cxx lines 65-173)

`LoadedCommandImpl` extends `cmLoadedCommandInfo`: the table populated by
the plugin's init function holds the function pointers `InitialPass`,
`FinalPass`, `Destructor`, the display name `Name`, and the
plugin-allocated error buffer `Error`.  The `Error` field is a raw C
pointer: `free(Error)` releases the allocation but leaves the pointer
value stored in the field, so a truthiness test `if (Error)` afterwards
still succeeds on the dangling pointer. -/

/-- State of the `Error` field's pointer: null, a live allocation holding
a string, or a freed allocation whose address (and, until reused, stale
contents) the field still holds. -/
inductive CStrPtr where
  | null
  | live (s : String)
  | dangling (s : String)
  deriving Repr, DecidableEq

/-- C truthiness of the pointer (`if (ptr)`): true unless null.  A
dangling pointer is still non-null. -/
def CStrPtr.nonNull : CStrPtr → Bool
  | CStrPtr.null => false
  | CStrPtr.live _ => true
  | CStrPtr.dangling _ => true

/-- Effect of `free(p)` on the variable that held `p`: the allocation is
released but the stored address is unchanged, so a live pointer becomes a
dangling one.  (Freeing null is a no-op; freeing a dangling pointer would
be a double free.) -/
def CStrPtr.free : CStrPtr → CStrPtr
  | CStrPtr.live s => CStrPtr.dangling s
  | p => p

/-- The kind of a foreign (plugin) call crossing the host boundary. -/
inductive FCall where
  | initCall
  | immediate
  | finalCall
  | teardown
  deriving Repr, DecidableEq

/-- Observable event of the host-to-plugin boundary: installing the
signal-handler guard tagged with a name, performing a foreign call, or
removing the guard. -/
inductive Event where
  | guardInstall (tag : String)
  | foreignCall (k : FCall)
  | guardRemove
  deriving Repr, DecidableEq

/-- Host-visible fields of a `LoadedCommandImpl` table: which optional
entry points the plugin populated, the display name, and the error
buffer. -/
structure ImplState where
  name : Option String
  hasInitialPass : Bool
  hasFinalPass : Bool
  hasDestructor : Bool
  error : CStrPtr
  deriving Repr, DecidableEq

/-- The fields a plugin's init function populates in the freshly
zero-initialized table passed to it (lines 67-73). -/
structure InitRes where
  name : Option String
  hasInitialPass : Bool
  hasFinalPass : Bool
  hasDestructor : Bool
  deriving Repr, DecidableEq

/-- Embeds `LoadedCommandImpl::LoadedCommandImpl(init)` (lines 67-73): the table
is zero-initialized, then `init(this)` is invoked directly — with no
`SignalHandlerGuard` in scope — to populate it.  Returns the populated
state and the boundary events of construction. -/
def LoadedCommandImpl.construct (r : InitRes) : ImplState × List Event :=
  ({ name := r.name, hasInitialPass := r.hasInitialPass,
     hasFinalPass := r.hasFinalPass, hasDestructor := r.hasDestructor,
     error := CStrPtr.null },
   [Event.foreignCall FCall.initCall])

/-- Boundary events of `LoadedCommandImpl::~LoadedCommandImpl()`
(lines 75-84): if `Destructor` is present, a guard tagged with `Name` is
installed around the teardown call; afterwards `Error` is freed if
non-null. -/
def LoadedCommandImpl.destructEvents (impl : ImplState) : List Event :=
  if impl.hasDestructor then
    [Event.guardInstall (guardTag impl.name), Event.foreignCall FCall.teardown,
     Event.guardRemove]
  else []

/-- Boundary events of `LoadedCommandImpl::DoFinalPass` (lines 95-99):
the `FinalPass` call runs inside a guard tagged with `Name`. -/
def LoadedCommandImpl.doFinalPassEvents (impl : ImplState) : List Event :=
  [Event.guardInstall (guardTag impl.name), Event.foreignCall FCall.finalCall,
   Event.guardRemove]

/-! ## Command proxy immediate pass: `cmLoadedCommand::InitialPass`
(lines 134-173)

The foreign immediate-pass entry point is modelled as a function from the
marshalled argument strings (argv entries are `strdup`s of the script
arguments) to the `int` return code together with the error text the
plugin stored through `cmSetError` during the call (`none` when the call
leaves the error buffer untouched). -/

/-- Behavior of a plugin's immediate-pass entry point. -/
def ForeignPass : Type := List String → Int × Option String

/-- Everything `cmLoadedCommand::InitialPass` produces that the host can
observe: the boolean result, whether a deferred final action was
registered with the makefile, whether any foreign call was made, the
pointer passed to `this->SetError` (if it was called), the table state
afterwards, and the boundary events. -/
structure PassOutcome where
  success : Bool
  finalActionScheduled : Bool
  foreignCalled : Bool
  hostError : Option CStrPtr
  state : ImplState
  events : List Event
  deriving Repr, DecidableEq

/-- Embeds `cmLoadedCommand::InitialPass(args, status)` (lines 134-173).
If the table has no `InitialPass` entry point, return true at once
(lines 137-139): no foreign call, no error clearing.  Otherwise
`free(this->Impl->Error)` if non-null (lines 141-144) — the pointer is
freed but the field is not nulled — marshal the arguments, invoke
`DoInitialPass` under the guard (lines 89-93, 156), and free the argv
copies.  On a non-zero result, register a final action capturing the
shared impl when `FinalPass` is present, and return true (lines 159-166).
On a zero result, pass `this->Impl->Error` to `SetError` when that field
is non-null, and return false (lines 168-172). -/
def cmLoadedCommand.InitialPass (foreign : ForeignPass) (impl : ImplState)
    (args : List String) : PassOutcome :=
  if ¬ impl.hasInitialPass then
    { success := true, finalActionScheduled := false, foreignCalled := false,
      hostError := none, state := impl, events := [] }
  else
    let cleared : CStrPtr := if impl.error.nonNull then impl.error.free else impl.error
    let ret : Int := (foreign args).1
    let stored : Option String := (foreign args).2
    let errAfter : CStrPtr :=
      match stored with
      | some s => CStrPtr.live s
      | none => cleared
    let impl' : ImplState := { impl with error := errAfter }
    let evs : List Event :=
      [Event.guardInstall (guardTag impl.name), Event.foreignCall FCall.immediate,
       Event.guardRemove]
    if ret ≠ 0 then
      { success := true, finalActionScheduled := impl.hasFinalPass,
        foreignCalled := true, hostError := none, state := impl', events := evs }
    else
      { success := false, finalActionScheduled := false, foreignCalled := true,
        hostError := if impl'.error.nonNull then some impl'.error else none,
        state := impl', events := evs }

/-! Claim C1: concrete scenario.  Call 1 fails and stores error text
"bad arg"; call 2 fails and stores nothing.  Lines 141-144 free the
stored buffer but leave the `Error` field holding the freed address, so
line 169's `if (this->Impl->Error)` still succeeds and line 170 passes
the dangling first-call buffer to `SetError`. -/

/-- A plugin immediate pass that returns failure (0) and stores the error
text "bad arg". -/
def failWithBadArg : ForeignPass := fun _ => (0, some "bad arg")

/-- A plugin immediate pass that returns failure (0) and leaves the error
buffer untouched. -/
def failSilently : ForeignPass := fun _ => (0, none)

/-- A populated table with only an immediate-pass entry point. -/
def demoImpl : ImplState :=
  { name := some "Foo", hasInitialPass := true, hasFinalPass := false,
    hasDestructor := false, error := CStrPtr.null }

/-- C1 (code bug, failing input): after a first immediate pass that
failed storing "bad arg", a second immediate pass whose foreign call
stores no error text and returns 0 ends with `SetError` called on the
dangling buffer still holding the first call's text: the "clear the error
string" step (lines 141-144) frees the buffer but does not null the
`Error` field, so the first call's error text leaks into the second
call's host-visible error message through a freed pointer. -/
theorem initialPass_stale_error_leaks :
    (cmLoadedCommand.InitialPass failWithBadArg demoImpl ["a"]).hostError
      = some (CStrPtr.live "bad arg") ∧
    (failSilently ["a"]).2 = none ∧
    (cmLoadedCommand.InitialPass failSilently
        (cmLoadedCommand.InitialPass failWithBadArg demoImpl ["a"]).state
        ["a"]).success = false ∧
    (cmLoadedCommand.InitialPass failSilently
        (cmLoadedCommand.InitialPass failWithBadArg demoImpl ["a"]).state
        ["a"]).hostError = some (CStrPtr.dangling "bad arg") := by
  decide

/-! Claim C8 theorems. -/

/-- C8: for every argument list, the immediate pass returns trivial
success with no foreign call (and schedules nothing) when the table has
no immediate-pass entry point; otherwise a foreign call is made, the
result is success exactly when the foreign return code is non-zero, on a
non-zero code a final action is scheduled exactly when a deferred-pass
entry point is present, and on a zero code nothing is scheduled. -/
theorem initialPass_result_mapping (foreign : ForeignPass) (impl : ImplState)
    (args : List String) :
    (impl.hasInitialPass = false →
      cmLoadedCommand.InitialPass foreign impl args =
        { success := true, finalActionScheduled := false, foreignCalled := false,
          hostError := none, state := impl, events := [] }) ∧
    (impl.hasInitialPass = true →
      (cmLoadedCommand.InitialPass foreign impl args).foreignCalled = true ∧
      (cmLoadedCommand.InitialPass foreign impl args).success
        = ((foreign args).1 != 0) ∧
      ((foreign args).1 ≠ 0 →
        (cmLoadedCommand.InitialPass foreign impl args).finalActionScheduled
          = impl.hasFinalPass) ∧
      ((foreign args).1 = 0 →
        (cmLoadedCommand.InitialPass foreign impl args).finalActionScheduled
          = false)) := by
  constructor
  · intro h
    simp [cmLoadedCommand.InitialPass, h]
  · intro h
    by_cases hz : (foreign args).1 = 0
    · simp [cmLoadedCommand.InitialPass, h, hz]
    · simp [cmLoadedCommand.InitialPass, h, hz]

/-- A plugin immediate pass that returns success (1) and stores no
error. -/
def passOk : ForeignPass := fun _ => (1, none)

/-- A populated table with all three entry points present. -/
def demoImplFull : ImplState :=
  { name := some "Foo", hasInitialPass := true, hasFinalPass := true,
    hasDestructor := true, error := CStrPtr.null }

/-- C8 witness: at a table with all entry points and a succeeding foreign
pass, the immediate pass reports success and schedules the final
action. -/
theorem initialPass_result_mapping_witness :
    (cmLoadedCommand.InitialPass passOk demoImplFull ["x"]).success = true ∧
    (cmLoadedCommand.InitialPass passOk demoImplFull ["x"]).finalActionScheduled
      = true := by
  have h := (initialPass_result_mapping passOk demoImplFull ["x"]).2 rfl
  refine ⟨h.2.1.trans (by decide), (h.2.2.1 (by decide)).trans rfl⟩

/-! Claim C9 theorems. -/

/-- C9: the table-population call of `LoadedCommandImpl`'s constructor is
the single unguarded foreign call — its event trace is exactly the init
call, with no guard installation — while the final-pass call, the
teardown call (when a destructor is present) and the immediate-pass call
(when present) each run between installing a guard tagged with the
table's display name and removing it. -/
theorem only_table_init_unguarded (r : InitRes) (impl : ImplState)
    (foreign : ForeignPass) (args : List String) :
    (LoadedCommandImpl.construct r).2 = [Event.foreignCall FCall.initCall] ∧
    (∀ t, Event.guardInstall t ∉ (LoadedCommandImpl.construct r).2) ∧
    LoadedCommandImpl.doFinalPassEvents impl =
      [Event.guardInstall (guardTag impl.name),
       Event.foreignCall FCall.finalCall, Event.guardRemove] ∧
    (impl.hasDestructor = true →
      LoadedCommandImpl.destructEvents impl =
        [Event.guardInstall (guardTag impl.name),
         Event.foreignCall FCall.teardown, Event.guardRemove]) ∧
    (impl.hasInitialPass = true →
      (cmLoadedCommand.InitialPass foreign impl args).events =
        [Event.guardInstall (guardTag impl.name),
         Event.foreignCall FCall.immediate, Event.guardRemove]) := by
  refine ⟨rfl, ?_, rfl, ?_, ?_⟩
  · intro t ht
    simp [LoadedCommandImpl.construct] at ht
  · intro h
    simp [LoadedCommandImpl.destructEvents, h]
  · intro h
    by_cases hz : (foreign args).1 = 0
    · simp [cmLoadedCommand.InitialPass, h, hz]
    · simp [cmLoadedCommand.InitialPass, h, hz]

/-- C9 witness: at a fully-populated table the guarded traces are as
stated and construction emits only the unguarded init call. -/
theorem only_table_init_unguarded_witness :
    (LoadedCommandImpl.construct
        { name := some "Foo", hasInitialPass := true, hasFinalPass := true,
          hasDestructor := true }).2 = [Event.foreignCall FCall.initCall] ∧
    LoadedCommandImpl.destructEvents demoImplFull =
      [Event.guardInstall "Foo", Event.foreignCall FCall.teardown,
       Event.guardRemove] ∧
    (cmLoadedCommand.InitialPass passOk demoImplFull ["x"]).events =
      [Event.guardInstall "Foo", Event.foreignCall FCall.immediate,
       Event.guardRemove] := by
  have h := only_table_init_unguarded
    { name := some "Foo", hasInitialPass := true, hasFinalPass := true,
      hasDestructor := true } demoImplFull passOk ["x"]
  exact ⟨h.1, (h.2.2.2.1 rfl).trans (by decide), (h.2.2.2.2 rfl).trans (by decide)⟩

/-! ## Load directive handler: `cmLoadCommandCommand::InitialPass`
(cmLoadCommandCommand.cxx lines 178-254)

The makefile's variable store is a list of (name, value) bindings;
`RemoveDefinition` and `AddDefinition` are the store operations the
handler uses.  The external collaborators — registry expansion plus
wildcard globbing (`ExpandRegistryValues`/`GlobDirs`), file search
(`cmSystemTools::FindFile`, returning the empty string on a miss), the
dynamic loader (`OpenLibrary`/`LastError`/`GetSymbolAddress`) and the
host's configured shared-module affixes — are parameters collected in
`Ext`. -/

/-- The makefile's variable store. -/
abbrev Defs : Type := List (String × String)

/-- Value of variable `k` in the store (first binding wins). -/
def lookupDef (defs : Defs) (k : String) : Option String :=
  match defs with
  | [] => none
  | (a, v) :: rest => if a = k then some v else lookupDef rest k

/-- Embeds `cmMakefile::RemoveDefinition`: drop every binding of `k`. -/
def removeDefinition (defs : Defs) (k : String) : Defs :=
  List.filter (fun p => p.1 ≠ k) defs

/-- Embeds `cmMakefile::AddDefinition`: bind `k` to `v`, replacing any previous
binding. -/
def addDefinition (defs : Defs) (k v : String) : Defs :=
  (k, v) :: removeDefinition defs k

/-- External collaborators the directive handler calls into. -/
structure Ext where
  modPre : String
  modSuf : String
  expandOne : String → List String
  findFile : String → List String → String
  openLibrary : String → Option Nat
  loaderLastError : Option String
  getSymbol : Nat → String → Bool

/-- Expected module file name (lines 191-194):
`<CMAKE_SHARED_MODULE_PREFIX>cm<CommandName><CMAKE_SHARED_MODULE_SUFFIX>`. -/
def moduleFileName (ext : Ext) (name : String) : String :=
  ext.modPre ++ "cm" ++ name ++ ext.modSuf

/-- Expanded search path (lines 197-205): each remaining argument is
registry-expanded and globbed, the results appended in order. -/
def expandPath (ext : Ext) (rest : List String) : List String :=
  rest.flatMap ext.expandOne

/-- Host-observable outcome of one load directive: the boolean result,
the `SetError` message if any, the variable store afterwards, the name
registered in the scripted-command registry if any, and the symbol names
queried through `GetSymbolAddress`, in order. -/
structure DirectiveOutcome where
  success : Bool
  errorMsg : Option String
  defs : Defs
  registered : Option String
  symbolLookups : List String
  deriving DecidableEq

/-- Name of the report variable (line 187):
`cmStrCat("CMAKE_LOADED_COMMAND_", args[0])` — the command name is used
verbatim, with no case conversion. -/
def reportVarName (name : String) : String := "CMAKE_LOADED_COMMAND_" ++ name

/-- Error message on a search miss (lines 210-211). -/
def lookupFailMsg (ext : Ext) (name : String) : String :=
  "Attempt to load command failed from file \"" ++ moduleFileName ext name ++ "\""

/-- Error message when the loader cannot open the found file
(lines 220-226), appending the loader's diagnostic when available. -/
def openFailMsg (ext : Ext) (fullPath : String) : String :=
  ("Attempt to load the library " ++ fullPath ++ " failed.") ++
    (match ext.loaderLastError with
      | some e => " Additional error info is:\n" ++ e
      | none => "")

/-- Error message when neither init symbol is present (lines 251-252). -/
def noInitFnMsg : String :=
  "Attempt to load command failed. No init function found."

/-- Embeds `cmLoadCommandCommand::InitialPass(args, status)` (lines 178-254).
An empty argument list is a trivial success.  Otherwise the report
variable `CMAKE_LOADED_COMMAND_<args[0]>` is removed first (lines
185-188); the module file name is computed and searched for on the
expanded path; a miss fails with a message naming the expected file
(lines 208-214); a loader failure appends the loader's diagnostic when
available (lines 217-229); on a successful open the report variable is
set to the resolved full path (line 232) before any symbol lookup; the
init symbol `<name>Init` is tried first, then `_<name>Init` only if the
first returned null (lines 235-242); if either is found the command is
registered and the directive succeeds, otherwise it fails with the "No
init function found" message (lines 245-253). -/
def cmLoadCommandCommand.InitialPass (ext : Ext) (defs : Defs)
    (args : List String) : DirectiveOutcome :=
  match args with
  | [] =>
    { success := true, errorMsg := none, defs := defs, registered := none,
      symbolLookups := [] }
  | name :: rest =>
    let defs1 : Defs := removeDefinition defs (reportVarName name)
    let fullPath : String := ext.findFile (moduleFileName ext name) (expandPath ext rest)
    if fullPath = "" then
      { success := false, errorMsg := some (lookupFailMsg ext name),
        defs := defs1, registered := none, symbolLookups := [] }
    else
      match ext.openLibrary fullPath with
      | none =>
        { success := false, errorMsg := some (openFailMsg ext fullPath),
          defs := defs1, registered := none, symbolLookups := [] }
      | some lib =>
        let defs2 : Defs := addDefinition defs1 (reportVarName name) fullPath
        if ext.getSymbol lib (name ++ "Init") then
          { success := true, errorMsg := none, defs := defs2,
            registered := some name, symbolLookups := [name ++ "Init"] }
        else if ext.getSymbol lib ("_" ++ name ++ "Init") then
          { success := true, errorMsg := none, defs := defs2,
            registered := some name,
            symbolLookups := [name ++ "Init", "_" ++ name ++ "Init"] }
        else
          { success := false, errorMsg := some noInitFnMsg,
            defs := defs2, registered := none,
            symbolLookups := [name ++ "Init", "_" ++ name ++ "Init"] }

/-! Variable-store lemmas. -/

/-- After `RemoveDefinition`, the variable has no binding. -/
theorem lookupDef_removeDefinition (defs : Defs) (k : String) :
    lookupDef (removeDefinition defs k) k = none := by
  induction defs with
  | nil => rfl
  | cons p rest ih =>
    rcases p with ⟨a, v⟩
    by_cases h : a = k
    · simpa [removeDefinition, List.filter_cons, h] using ih
    · simpa [removeDefinition, List.filter_cons, h, lookupDef] using ih

/-- Lemma: `RemoveDefinition` is idempotent. -/
theorem removeDefinition_idem (defs : Defs) (k : String) :
    removeDefinition (removeDefinition defs k) k = removeDefinition defs k := by
  simp [removeDefinition, List.filter_filter]

/-- After `AddDefinition`, the variable holds the new value. -/
theorem lookupDef_addDefinition (defs : Defs) (k v : String) :
    lookupDef (addDefinition defs k v) k = some v := by
  simp [addDefinition, lookupDef]

/-! Branch characterizations of the directive handler. -/

/-- Outcome when the module file is found in no directory of the search
path (`FindFile` returns the empty string, lines 208-214). -/
theorem directive_find_miss (ext : Ext) (defs : Defs) (name : String)
    (rest : List String)
    (hf : ext.findFile (moduleFileName ext name) (expandPath ext rest) = "") :
    cmLoadCommandCommand.InitialPass ext defs (name :: rest) =
      { success := false, errorMsg := some (lookupFailMsg ext name),
        defs := removeDefinition defs (reportVarName name), registered := none,
        symbolLookups := [] } := by
  simp [cmLoadCommandCommand.InitialPass, hf]

/-- Outcome when the file is found but the loader cannot open it
(lines 217-229). -/
theorem directive_open_fail (ext : Ext) (defs : Defs) (name : String)
    (rest : List String)
    (hf : ext.findFile (moduleFileName ext name) (expandPath ext rest) ≠ "")
    (ho : ext.openLibrary
        (ext.findFile (moduleFileName ext name) (expandPath ext rest)) = none) :
    cmLoadCommandCommand.InitialPass ext defs (name :: rest) =
      { success := false,
        errorMsg := some (openFailMsg ext
          (ext.findFile (moduleFileName ext name) (expandPath ext rest))),
        defs := removeDefinition defs (reportVarName name), registered := none,
        symbolLookups := [] } := by
  simp [cmLoadCommandCommand.InitialPass, hf, ho]

/-- Outcome when the library opens and the canonical init symbol
`<name>Init` is present (lines 235-237, 245-249). -/
theorem directive_symbol_canonical (ext : Ext) (defs : Defs) (name : String)
    (rest : List String) (lib : Nat)
    (hf : ext.findFile (moduleFileName ext name) (expandPath ext rest) ≠ "")
    (ho : ext.openLibrary
        (ext.findFile (moduleFileName ext name) (expandPath ext rest)) = some lib)
    (h1 : ext.getSymbol lib (name ++ "Init") = true) :
    cmLoadCommandCommand.InitialPass ext defs (name :: rest) =
      { success := true, errorMsg := none,
        defs := addDefinition (removeDefinition defs (reportVarName name))
          (reportVarName name)
          (ext.findFile (moduleFileName ext name) (expandPath ext rest)),
        registered := some name, symbolLookups := [name ++ "Init"] } := by
  simp [cmLoadCommandCommand.InitialPass, hf, ho, h1]

/-- Outcome when the canonical symbol is absent and the
underscore-prefixed alternate `_<name>Init` is present (lines 238-242,
245-249). -/
theorem directive_symbol_alternate (ext : Ext) (defs : Defs) (name : String)
    (rest : List String) (lib : Nat)
    (hf : ext.findFile (moduleFileName ext name) (expandPath ext rest) ≠ "")
    (ho : ext.openLibrary
        (ext.findFile (moduleFileName ext name) (expandPath ext rest)) = some lib)
    (h1 : ext.getSymbol lib (name ++ "Init") = false)
    (h2 : ext.getSymbol lib ("_" ++ name ++ "Init") = true) :
    cmLoadCommandCommand.InitialPass ext defs (name :: rest) =
      { success := true, errorMsg := none,
        defs := addDefinition (removeDefinition defs (reportVarName name))
          (reportVarName name)
          (ext.findFile (moduleFileName ext name) (expandPath ext rest)),
        registered := some name,
        symbolLookups := [name ++ "Init", "_" ++ name ++ "Init"] } := by
  simp [cmLoadCommandCommand.InitialPass, hf, ho, h1, h2]

/-- Outcome when neither init symbol is present (lines 251-253). -/
theorem directive_no_init (ext : Ext) (defs : Defs) (name : String)
    (rest : List String) (lib : Nat)
    (hf : ext.findFile (moduleFileName ext name) (expandPath ext rest) ≠ "")
    (ho : ext.openLibrary
        (ext.findFile (moduleFileName ext name) (expandPath ext rest)) = some lib)
    (h1 : ext.getSymbol lib (name ++ "Init") = false)
    (h2 : ext.getSymbol lib ("_" ++ name ++ "Init") = false) :
    cmLoadCommandCommand.InitialPass ext defs (name :: rest) =
      { success := false, errorMsg := some noInitFnMsg,
        defs := addDefinition (removeDefinition defs (reportVarName name))
          (reportVarName name)
          (ext.findFile (moduleFileName ext name) (expandPath ext rest)),
        registered := none,
        symbolLookups := [name ++ "Init", "_" ++ name ++ "Init"] } := by
  simp [cmLoadCommandCommand.InitialPass, hf, ho, h1, h2]

/-! Claim C3 theorems. -/

/-- External collaborators for a fully successful load of command "Foo":
a one-directory search path, a loader that opens the found file, and a
symbol table exporting exactly `FooInit`. -/
def demoExt : Ext :=
  { modPre := "lib", modSuf := ".so",
    expandOne := fun e => [e],
    findFile := fun m dirs => if dirs = ["/plugins"] then "/plugins/" ++ m else "",
    openLibrary := fun _ => some 0,
    loaderLastError := none,
    getSymbol := fun _ s => s == "FooInit" }

/-- Uppercasing as the specification's wording describes the report
variable's name: every character mapped to its uppercase form.  Defined
here only to state the claim's version of the name; the source performs
no case conversion. -/
def upperName (s : String) : String := String.mk (s.data.map Char.toUpper)

/-- C3 counterexample: with command name "Foo" the load succeeds, yet the
uppercased variable name `CMAKE_LOADED_COMMAND_FOO` is unbound; the
resolved path is stored under `CMAKE_LOADED_COMMAND_Foo`, built at line
187 from the command name verbatim, with no case conversion. -/
theorem report_var_not_uppercased :
    (cmLoadCommandCommand.InitialPass demoExt [] ["Foo", "/plugins"]).success
      = true ∧
    upperName ("CMAKE_LOADED_COMMAND_" ++ "Foo") = "CMAKE_LOADED_COMMAND_FOO" ∧
    lookupDef (cmLoadCommandCommand.InitialPass demoExt [] ["Foo", "/plugins"]).defs
      (upperName ("CMAKE_LOADED_COMMAND_" ++ "Foo")) = none ∧
    lookupDef (cmLoadCommandCommand.InitialPass demoExt [] ["Foo", "/plugins"]).defs
      ("CMAKE_LOADED_COMMAND_" ++ "Foo") = some "/plugins/libcmFoo.so" := by
  decide

/-- C3 (amended): the report variable is named
`CMAKE_LOADED_COMMAND_<CommandName>` with the command name used verbatim
(not uppercased); on success it holds the resolved path, and it is
removed at the start of every load attempt, so the directive's outcome is
identical whether or not a previous binding of that variable existed —
no stale value persists across a failed reload. -/
theorem report_var_verbatim_and_cleared (ext : Ext) (defs : Defs)
    (name : String) (rest : List String) :
    ((cmLoadCommandCommand.InitialPass ext defs (name :: rest)).success = true →
      lookupDef (cmLoadCommandCommand.InitialPass ext defs (name :: rest)).defs
        (reportVarName name)
        = some (ext.findFile (moduleFileName ext name) (expandPath ext rest))) ∧
    cmLoadCommandCommand.InitialPass ext defs (name :: rest) =
      cmLoadCommandCommand.InitialPass ext
        (removeDefinition defs (reportVarName name)) (name :: rest) := by
  constructor
  · intro hs
    by_cases hf : ext.findFile (moduleFileName ext name) (expandPath ext rest) = ""
    · rw [directive_find_miss ext defs name rest hf] at hs
      simp at hs
    · cases ho : ext.openLibrary
          (ext.findFile (moduleFileName ext name) (expandPath ext rest)) with
      | none =>
        rw [directive_open_fail ext defs name rest hf ho] at hs
        simp at hs
      | some lib =>
        by_cases h1 : ext.getSymbol lib (name ++ "Init") = true
        · rw [directive_symbol_canonical ext defs name rest lib hf ho h1]
          exact lookupDef_addDefinition _ _ _
        · rw [Bool.not_eq_true] at h1
          by_cases h2 : ext.getSymbol lib ("_" ++ name ++ "Init") = true
          · rw [directive_symbol_alternate ext defs name rest lib hf ho h1 h2]
            exact lookupDef_addDefinition _ _ _
          · rw [Bool.not_eq_true] at h2
            rw [directive_no_init ext defs name rest lib hf ho h1 h2] at hs
            simp at hs
  · simp only [cmLoadCommandCommand.InitialPass, removeDefinition_idem]

/-- C3 witness: at the concrete successful load of "Foo" the directive
succeeds and `CMAKE_LOADED_COMMAND_Foo` holds the resolved path; the
outcome with a stale prior binding equals the outcome without it. -/
theorem report_var_verbatim_and_cleared_witness :
    lookupDef (cmLoadCommandCommand.InitialPass demoExt
        [("CMAKE_LOADED_COMMAND_Foo", "stale")] ["Foo", "/plugins"]).defs
      (reportVarName "Foo") = some "/plugins/libcmFoo.so" ∧
    cmLoadCommandCommand.InitialPass demoExt
        [("CMAKE_LOADED_COMMAND_Foo", "stale")] ["Foo", "/plugins"] =
      cmLoadCommandCommand.InitialPass demoExt
        (removeDefinition [("CMAKE_LOADED_COMMAND_Foo", "stale")]
          (reportVarName "Foo")) ["Foo", "/plugins"] := by
  have h := report_var_verbatim_and_cleared demoExt
    [("CMAKE_LOADED_COMMAND_Foo", "stale")] "Foo" ["/plugins"]
  exact ⟨(h.1 (by decide)).trans (by decide), h.2⟩

/-! Claim C4 theorems. -/

/-- C4: whenever the module file is found and the library opens, the
report variable holds the exact resolved full path in the final store —
the definition is added at line 232, before any init-symbol lookup, so
this holds for every symbol-resolution outcome, including the
"No init function found" failure. -/
theorem reported_path_survives_symbol_failure (ext : Ext) (defs : Defs)
    (name : String) (rest : List String) (lib : Nat)
    (hf : ext.findFile (moduleFileName ext name) (expandPath ext rest) ≠ "")
    (ho : ext.openLibrary
        (ext.findFile (moduleFileName ext name) (expandPath ext rest)) = some lib) :
    lookupDef (cmLoadCommandCommand.InitialPass ext defs (name :: rest)).defs
      (reportVarName name)
      = some (ext.findFile (moduleFileName ext name) (expandPath ext rest)) := by
  by_cases h1 : ext.getSymbol lib (name ++ "Init") = true
  · rw [directive_symbol_canonical ext defs name rest lib hf ho h1]
    exact lookupDef_addDefinition _ _ _
  · rw [Bool.not_eq_true] at h1
    by_cases h2 : ext.getSymbol lib ("_" ++ name ++ "Init") = true
    · rw [directive_symbol_alternate ext defs name rest lib hf ho h1 h2]
      exact lookupDef_addDefinition _ _ _
    · rw [Bool.not_eq_true] at h2
      rw [directive_no_init ext defs name rest lib hf ho h1 h2]
      exact lookupDef_addDefinition _ _ _

/-- External collaborators whose library opens but exports no symbol at
all. -/
def demoExtNoSym : Ext :=
  { modPre := "lib", modSuf := ".so",
    expandOne := fun e => [e],
    findFile := fun m dirs => if dirs = ["/plugins"] then "/plugins/" ++ m else "",
    openLibrary := fun _ => some 0,
    loaderLastError := none,
    getSymbol := fun _ _ => false }

/-- C4 witness: with a library exporting neither init symbol the
directive fails, yet `CMAKE_LOADED_COMMAND_Foo` still holds the resolved
path. -/
theorem reported_path_survives_symbol_failure_witness :
    (cmLoadCommandCommand.InitialPass demoExtNoSym [] ["Foo", "/plugins"]).success
      = false ∧
    lookupDef (cmLoadCommandCommand.InitialPass demoExtNoSym []
        ["Foo", "/plugins"]).defs (reportVarName "Foo")
      = some "/plugins/libcmFoo.so" := by
  refine ⟨by decide, ?_⟩
  exact (reported_path_survives_symbol_failure demoExtNoSym [] "Foo" ["/plugins"] 0
    (by decide) rfl).trans (by decide)

/-! Claim C5 theorems. -/

/-- C5: when the expected module file is absent from every directory of
the expanded search path (`FindFile` returns the empty string), the
directive fails, its message names the expected file
`<prefix>cm<CommandName><suffix>`, nothing is registered, and the report
variable is unbound in the final store. -/
theorem lookup_failure_message_and_var_unset (ext : Ext) (defs : Defs)
    (name : String) (rest : List String)
    (hf : ext.findFile (moduleFileName ext name) (expandPath ext rest) = "") :
    (cmLoadCommandCommand.InitialPass ext defs (name :: rest)).success = false ∧
    (cmLoadCommandCommand.InitialPass ext defs (name :: rest)).errorMsg
      = some (lookupFailMsg ext name) ∧
    (∃ pre post, lookupFailMsg ext name
      = pre ++ moduleFileName ext name ++ post) ∧
    lookupDef (cmLoadCommandCommand.InitialPass ext defs (name :: rest)).defs
      (reportVarName name) = none ∧
    (cmLoadCommandCommand.InitialPass ext defs (name :: rest)).registered
      = none := by
  rw [directive_find_miss ext defs name rest hf]
  exact ⟨rfl, rfl,
    ⟨"Attempt to load command failed from file \"", "\"", rfl⟩,
    lookupDef_removeDefinition defs (reportVarName name), rfl⟩

/-- External collaborators whose search finds nothing. -/
def demoExtMiss : Ext :=
  { modPre := "lib", modSuf := ".so",
    expandOne := fun e => [e],
    findFile := fun _ _ => "",
    openLibrary := fun _ => some 0,
    loaderLastError := none,
    getSymbol := fun _ s => s == "FooInit" }

/-- C5 witness: searching for "Foo" with no matching file fails with the
message naming `libcmFoo.so`, and a stale report-variable binding is
gone afterwards. -/
theorem lookup_failure_message_and_var_unset_witness :
    (cmLoadCommandCommand.InitialPass demoExtMiss
        [("CMAKE_LOADED_COMMAND_Foo", "stale")] ["Foo", "/plugins"]).success
      = false ∧
    (cmLoadCommandCommand.InitialPass demoExtMiss
        [("CMAKE_LOADED_COMMAND_Foo", "stale")] ["Foo", "/plugins"]).errorMsg
      = some "Attempt to load command failed from file \"libcmFoo.so\"" ∧
    lookupDef (cmLoadCommandCommand.InitialPass demoExtMiss
        [("CMAKE_LOADED_COMMAND_Foo", "stale")] ["Foo", "/plugins"]).defs
      (reportVarName "Foo") = none := by
  have h := lookup_failure_message_and_var_unset demoExtMiss
    [("CMAKE_LOADED_COMMAND_Foo", "stale")] "Foo" ["/plugins"] rfl
  exact ⟨h.1, h.2.1.trans (by decide), h.2.2.2.1⟩

/-! Claim C6 theorems. -/

/-- C6: for every opened library, the canonical symbol `<name>Init` is
looked up first; when it is present it alone is consulted and the command
is registered; the alternate `_<name>Init` is consulted exactly when the
canonical lookup returned absent; and when both are absent the directive
fails with the "No init function found" message and registers nothing. -/
theorem symbol_resolution_order (ext : Ext) (defs : Defs) (name : String)
    (rest : List String) (lib : Nat)
    (hf : ext.findFile (moduleFileName ext name) (expandPath ext rest) ≠ "")
    (ho : ext.openLibrary
        (ext.findFile (moduleFileName ext name) (expandPath ext rest)) = some lib) :
    (ext.getSymbol lib (name ++ "Init") = true →
      (cmLoadCommandCommand.InitialPass ext defs (name :: rest)).symbolLookups
        = [name ++ "Init"] ∧
      (cmLoadCommandCommand.InitialPass ext defs (name :: rest)).registered
        = some name) ∧
    (ext.getSymbol lib (name ++ "Init") = false →
      (cmLoadCommandCommand.InitialPass ext defs (name :: rest)).symbolLookups
        = [name ++ "Init", "_" ++ name ++ "Init"]) ∧
    (ext.getSymbol lib (name ++ "Init") = false →
      ext.getSymbol lib ("_" ++ name ++ "Init") = false →
      (cmLoadCommandCommand.InitialPass ext defs (name :: rest)).success = false ∧
      (cmLoadCommandCommand.InitialPass ext defs (name :: rest)).errorMsg
        = some noInitFnMsg ∧
      (cmLoadCommandCommand.InitialPass ext defs (name :: rest)).registered
        = none) := by
  refine ⟨?_, ?_, ?_⟩
  · intro h1
    rw [directive_symbol_canonical ext defs name rest lib hf ho h1]
    exact ⟨rfl, rfl⟩
  · intro h1
    by_cases h2 : ext.getSymbol lib ("_" ++ name ++ "Init") = true
    · rw [directive_symbol_alternate ext defs name rest lib hf ho h1 h2]
    · rw [Bool.not_eq_true] at h2
      rw [directive_no_init ext defs name rest lib hf ho h1 h2]
  · intro h1 h2
    rw [directive_no_init ext defs name rest lib hf ho h1 h2]
    exact ⟨rfl, rfl, rfl⟩

/-- C6 witness: with only `FooInit` exported the single lookup is the
canonical name and "Foo" is registered; with nothing exported both
lookups happen in order and the directive fails with the "No init
function found" message. -/
theorem symbol_resolution_order_witness :
    (cmLoadCommandCommand.InitialPass demoExt [] ["Foo", "/plugins"]).symbolLookups
      = ["FooInit"] ∧
    (cmLoadCommandCommand.InitialPass demoExt [] ["Foo", "/plugins"]).registered
      = some "Foo" ∧
    (cmLoadCommandCommand.InitialPass demoExtNoSym [] ["Foo", "/plugins"]).symbolLookups
      = ["FooInit", "_FooInit"] ∧
    (cmLoadCommandCommand.InitialPass demoExtNoSym [] ["Foo", "/plugins"]).errorMsg
      = some noInitFnMsg := by
  have ha := symbol_resolution_order demoExt [] "Foo" ["/plugins"] 0
    (by decide) rfl
  have hb := symbol_resolution_order demoExtNoSym [] "Foo" ["/plugins"] 0
    (by decide) rfl
  refine ⟨(ha.1 (by decide)).1.trans (by decide),
    (ha.1 (by decide)).2.trans (by decide),
    (hb.2.1 rfl).trans (by decide), (hb.2.2 rfl rfl).2.1⟩

/-! ## Shared ownership of the Loaded Command State

`cmLoadedCommand` holds `std::shared_ptr<LoadedCommandImpl> Impl`
(line 131).  `Clone` (lines 115-121) copies the shared pointer into a new
proxy (`newC->Impl = this->Impl`), the final-action lambda captures a
copy of it (lines 161-163), and `~LoadedCommandImpl` (lines 75-84) — the
teardown call — runs when the last copy is released.  The reference
counting of `std::shared_ptr`/`std::make_shared` is embedded as an
explicit count. -/

/-- The control block of the shared `LoadedCommandImpl`: the strong
reference count, whether the table has a teardown entry point, and how
many times the init call and the teardown call have run. -/
structure SharedRC where
  refCount : Nat
  hasDestructor : Bool
  initRuns : Nat
  teardownRuns : Nat
  deriving Repr, DecidableEq

/-- Embeds `std::make_shared<LoadedCommandImpl>(init)` (line 108): one owner,
the constructor's init call has run exactly once, no teardown yet. -/
def SharedRC.fresh (d : Bool) : SharedRC :=
  { refCount := 1, hasDestructor := d, initRuns := 1, teardownRuns := 0 }

/-- Copying the shared pointer (clone, or the final-action capture). -/
def SharedRC.retain (s : SharedRC) : SharedRC :=
  { s with refCount := s.refCount + 1 }

/-- Releasing one owner: when it is the last, `~LoadedCommandImpl` runs,
executing the teardown entry point exactly when `Destructor` is
present. -/
def SharedRC.release (s : SharedRC) : SharedRC :=
  if s.refCount = 1 then
    { s with
      refCount := 0,
      teardownRuns := s.teardownRuns + (if s.hasDestructor then 1 else 0) }
  else { s with refCount := s.refCount - 1 }

/-- Iterated release. -/
def SharedRC.releaseN : Nat → SharedRC → SharedRC
  | 0, s => s
  | n + 1, s => SharedRC.releaseN n s.release

/-- The world of one loaded command: its shared state, the number of live
proxies holding the shared pointer, and whether a scheduled final action
is still holding its captured copy. -/
structure World where
  rc : SharedRC
  proxies : Nat
  pendingFinal : Bool
  deriving Repr, DecidableEq

/-- Building the command once in the load directive (line 248): one
proxy, no pending final action. -/
def World.create (d : Bool) : World :=
  { rc := SharedRC.fresh d, proxies := 1, pendingFinal := false }

/-- Embeds `cmLoadedCommand::Clone` (lines 115-121): a new proxy whose `Impl`
is a copy of the same shared pointer; initialization is not re-run. -/
def World.clone (w : World) : World :=
  { w with proxies := w.proxies + 1, rc := w.rc.retain }

/-- Destroying one proxy releases its copy of the shared pointer. -/
def World.destroyProxy (w : World) : World :=
  { w with proxies := w.proxies - 1, rc := w.rc.release }

/-- Embeds `AddFinalAction` with the capturing lambda (lines 161-163): the
lambda owns a fresh copy of the shared pointer. -/
def World.scheduleFinal (w : World) : World :=
  { w with pendingFinal := true, rc := w.rc.retain }

/-- The scheduled final action runs (or the makefile discards it): the
lambda is destroyed and its captured copy released. -/
def World.dischargeFinal (w : World) : World :=
  { w with pendingFinal := false, rc := w.rc.release }

/-- Iterated clone. -/
def cloneN : Nat → World → World
  | 0, w => w
  | n + 1, w => cloneN n (World.clone w)

/-- Iterated proxy destruction. -/
def destroyN : Nat → World → World
  | 0, w => w
  | n + 1, w => destroyN n (World.destroyProxy w)

/-! Reference-counting lemmas. -/

/-- Releasing a non-last owner only decrements the count. -/
theorem release_notlast (s : SharedRC) (h : s.refCount ≠ 1) :
    s.release = { s with refCount := s.refCount - 1 } := by
  simp [SharedRC.release, h]

/-- Destroying proxies acts on the shared state by iterated release. -/
theorem destroyN_rc (j : Nat) (w : World) :
    (destroyN j w).rc = SharedRC.releaseN j w.rc := by
  induction j generalizing w with
  | zero => rfl
  | succ n ih => rw [destroyN, ih]; rfl

/-- Destroying proxies leaves a pending final action pending. -/
theorem destroyN_pending (j : Nat) (w : World) :
    (destroyN j w).pendingFinal = w.pendingFinal := by
  induction j generalizing w with
  | zero => rfl
  | succ n ih => rw [destroyN, ih]; rfl

/-- Releasing fewer owners than exist never runs teardown and only
lowers the count. -/
theorem releaseN_under (j : Nat) (s : SharedRC) (h : j < s.refCount) :
    (SharedRC.releaseN j s).refCount = s.refCount - j ∧
    (SharedRC.releaseN j s).teardownRuns = s.teardownRuns ∧
    (SharedRC.releaseN j s).hasDestructor = s.hasDestructor ∧
    (SharedRC.releaseN j s).initRuns = s.initRuns := by
  induction j generalizing s with
  | zero => exact ⟨rfl, rfl, rfl, rfl⟩
  | succ n ih =>
    have hne : s.refCount ≠ 1 := by omega
    have hrel := release_notlast s hne
    have hrc : s.release.refCount = s.refCount - 1 := by rw [hrel]
    have htd : s.release.teardownRuns = s.teardownRuns := by rw [hrel]
    have hhd : s.release.hasDestructor = s.hasDestructor := by rw [hrel]
    have hin : s.release.initRuns = s.initRuns := by rw [hrel]
    have h2 : n < s.release.refCount := by omega
    obtain ⟨a, b, c, d⟩ := ih s.release h2
    rw [SharedRC.releaseN]
    exact ⟨by rw [a, hrc]; omega, b.trans htd, c.trans hhd, d.trans hin⟩

/-- Releasing every owner drops the count to zero and runs teardown
exactly once, exactly when a teardown entry point is present. -/
theorem releaseN_exact (j : Nat) (s : SharedRC) (h : s.refCount = j + 1) :
    (SharedRC.releaseN (j + 1) s).refCount = 0 ∧
    (SharedRC.releaseN (j + 1) s).teardownRuns
      = s.teardownRuns + (if s.hasDestructor then 1 else 0) := by
  induction j generalizing s with
  | zero =>
    have h1 : s.refCount = 1 := by omega
    rw [SharedRC.releaseN, SharedRC.releaseN, SharedRC.release, if_pos h1]
    exact ⟨rfl, rfl⟩
  | succ n ih =>
    have hne : s.refCount ≠ 1 := by omega
    have hrel := release_notlast s hne
    have hrc : s.release.refCount = s.refCount - 1 := by rw [hrel]
    have htd : s.release.teardownRuns = s.teardownRuns := by rw [hrel]
    have hhd : s.release.hasDestructor = s.hasDestructor := by rw [hrel]
    have h2 : s.release.refCount = n + 1 := by omega
    obtain ⟨a, b⟩ := ih s.release h2
    rw [SharedRC.releaseN]
    exact ⟨a, by rw [b, htd, hhd]⟩

/-- Cloning accumulates references and proxies without touching init or
teardown counts. -/
theorem cloneN_fields (k : Nat) (w : World) :
    (cloneN k w).rc.refCount = w.rc.refCount + k ∧
    (cloneN k w).rc.initRuns = w.rc.initRuns ∧
    (cloneN k w).rc.teardownRuns = w.rc.teardownRuns ∧
    (cloneN k w).rc.hasDestructor = w.rc.hasDestructor ∧
    (cloneN k w).proxies = w.proxies + k ∧
    (cloneN k w).pendingFinal = w.pendingFinal := by
  induction k generalizing w with
  | zero => exact ⟨rfl, rfl, rfl, rfl, rfl, rfl⟩
  | succ n ih =>
    obtain ⟨a, b, c, d, e, f⟩ := ih (World.clone w)
    have h1 : (World.clone w).rc.refCount = w.rc.refCount + 1 := rfl
    have h2 : (World.clone w).rc.initRuns = w.rc.initRuns := rfl
    have h3 : (World.clone w).rc.teardownRuns = w.rc.teardownRuns := rfl
    have h4 : (World.clone w).rc.hasDestructor = w.rc.hasDestructor := rfl
    have h5 : (World.clone w).proxies = w.proxies + 1 := rfl
    have h6 : (World.clone w).pendingFinal = w.pendingFinal := rfl
    rw [cloneN]
    exact ⟨by rw [a, h1]; omega, b.trans h2, c.trans h3, d.trans h4,
      by rw [e, h5]; omega, f.trans h6⟩

/-! Claim C7 theorems. -/

/-- C7: starting from one freshly created command and `k` clones, every
clone is a distinct proxy (the proxy count grows) sharing the same state
(the reference count grows, initialization is not re-run); destroying any
`j ≤ k` proxies — leaving at least one alive — runs no teardown, and
destroying all `k + 1` proxies runs teardown exactly once when the
teardown entry point is present and never otherwise. -/
theorem clone_shares_state_teardown_once (d : Bool) (k j : Nat) (hj : j ≤ k) :
    (World.clone (cloneN k (World.create d))).proxies
      = (cloneN k (World.create d)).proxies + 1 ∧
    (World.clone (cloneN k (World.create d))).rc.initRuns = 1 ∧
    (World.clone (cloneN k (World.create d))).rc.refCount
      = (cloneN k (World.create d)).rc.refCount + 1 ∧
    (destroyN j (cloneN k (World.create d))).rc.teardownRuns = 0 ∧
    (destroyN (k + 1) (cloneN k (World.create d))).rc.teardownRuns
      = (if d then 1 else 0) ∧
    (destroyN (k + 1) (cloneN k (World.create d))).rc.refCount = 0 := by
  obtain ⟨a, b, c, hd2, e, f⟩ := cloneN_fields k (World.create d)
  have crc : (World.create d).rc.refCount = 1 := rfl
  have cin : (World.create d).rc.initRuns = 1 := rfl
  have ctd : (World.create d).rc.teardownRuns = 0 := rfl
  have chd : (World.create d).rc.hasDestructor = d := rfl
  have hlt : j < (cloneN k (World.create d)).rc.refCount := by omega
  obtain ⟨p1, p2, p3, p4⟩ :=
    releaseN_under j (cloneN k (World.create d)).rc hlt
  obtain ⟨q1, q2⟩ := releaseN_exact k (cloneN k (World.create d)).rc (by omega)
  refine ⟨rfl, b.trans cin, rfl, ?_, ?_, ?_⟩
  · rw [destroyN_rc, p2, c, ctd]
  · rw [destroyN_rc, q2, c, ctd, hd2, chd]
    cases d <;> simp
  · rw [destroyN_rc, q1]

/-- C7 witness: with a teardown entry point present and one clone (two
proxies), destroying one proxy runs no teardown, destroying both runs it
exactly once, and the clone did not re-run initialization. -/
theorem clone_shares_state_teardown_once_witness :
    (destroyN 1 (cloneN 1 (World.create true))).rc.teardownRuns = 0 ∧
    (destroyN 2 (cloneN 1 (World.create true))).rc.teardownRuns = 1 ∧
    (World.clone (cloneN 1 (World.create true))).rc.initRuns = 1 := by
  have h := clone_shares_state_teardown_once true 1 1 (by decide)
  exact ⟨h.2.2.2.1, by have h2 := h.2.2.2.2.1; simpa using h2, h.2.1⟩

/-! Claim C10 theorems. -/

/-- C10: when the immediate pass schedules the deferred (final) pass, the
pass succeeded and a deferred-pass entry point is present, and the
capturing lambda (lines 161-163) holds its own copy of the shared state:
after `k` clones, destroying all `k + 1` proxies while the action is
pending runs no teardown and leaves the state alive with one reference —
the pending action's — and only discharging the pending action (running
or discarding it) releases the last reference and runs teardown, exactly
when the teardown entry point is present. -/
theorem deferred_action_extends_lifetime (foreign : ForeignPass)
    (impl : ImplState) (args : List String) (k : Nat)
    (hs : (cmLoadedCommand.InitialPass foreign impl args).finalActionScheduled
      = true) :
    (cmLoadedCommand.InitialPass foreign impl args).success = true ∧
    impl.hasFinalPass = true ∧
    (destroyN (k + 1) (cloneN k (World.scheduleFinal
      (World.create impl.hasDestructor)))).rc.teardownRuns = 0 ∧
    (destroyN (k + 1) (cloneN k (World.scheduleFinal
      (World.create impl.hasDestructor)))).rc.refCount = 1 ∧
    (destroyN (k + 1) (cloneN k (World.scheduleFinal
      (World.create impl.hasDestructor)))).pendingFinal = true ∧
    (World.dischargeFinal (destroyN (k + 1) (cloneN k (World.scheduleFinal
      (World.create impl.hasDestructor))))).rc.teardownRuns
      = (if impl.hasDestructor then 1 else 0) := by
  have hfp : impl.hasFinalPass = true := by
    by_cases hip : impl.hasInitialPass = true
    · by_cases hz : (foreign args).1 = 0
      · simp [cmLoadedCommand.InitialPass, hip, hz] at hs
      · simpa [cmLoadedCommand.InitialPass, hip, hz] using hs
    · rw [Bool.not_eq_true] at hip
      simp [cmLoadedCommand.InitialPass, hip] at hs
  have hsc : (cmLoadedCommand.InitialPass foreign impl args).success = true := by
    by_cases hip : impl.hasInitialPass = true
    · by_cases hz : (foreign args).1 = 0
      · simp [cmLoadedCommand.InitialPass, hip, hz] at hs
      · simp [cmLoadedCommand.InitialPass, hip, hz]
    · rw [Bool.not_eq_true] at hip
      simp [cmLoadedCommand.InitialPass, hip] at hs
  obtain ⟨a, b, c, d2, e, f⟩ :=
    cloneN_fields k (World.scheduleFinal (World.create impl.hasDestructor))
  have w0rc : (World.scheduleFinal
      (World.create impl.hasDestructor)).rc.refCount = 2 := rfl
  have w0td : (World.scheduleFinal
      (World.create impl.hasDestructor)).rc.teardownRuns = 0 := rfl
  have w0hd : (World.scheduleFinal
      (World.create impl.hasDestructor)).rc.hasDestructor
      = impl.hasDestructor := rfl
  have w0pf : (World.scheduleFinal
      (World.create impl.hasDestructor)).pendingFinal = true := rfl
  have hlt : k + 1 < (cloneN k (World.scheduleFinal
      (World.create impl.hasDestructor))).rc.refCount := by omega
  obtain ⟨p1, p2, p3, p4⟩ := releaseN_under (k + 1)
    (cloneN k (World.scheduleFinal (World.create impl.hasDestructor))).rc hlt
  have htd0 : (destroyN (k + 1) (cloneN k (World.scheduleFinal
      (World.create impl.hasDestructor)))).rc.teardownRuns = 0 := by
    rw [destroyN_rc, p2, c, w0td]
  have hrc1 : (destroyN (k + 1) (cloneN k (World.scheduleFinal
      (World.create impl.hasDestructor)))).rc.refCount = 1 := by
    rw [destroyN_rc, p1, a, w0rc]
    omega
  have hhd : (destroyN (k + 1) (cloneN k (World.scheduleFinal
      (World.create impl.hasDestructor)))).rc.hasDestructor
      = impl.hasDestructor := by
    rw [destroyN_rc, p3, d2, w0hd]
  refine ⟨hsc, hfp, htd0, hrc1, ?_, ?_⟩
  · rw [destroyN_pending, f, w0pf]
  · show ((destroyN (k + 1) (cloneN k (World.scheduleFinal
      (World.create impl.hasDestructor)))).rc.release).teardownRuns = _
    rw [SharedRC.release, if_pos hrc1]
    simp [htd0, hhd]

/-- C10 witness: a table with immediate, final and teardown entry points
and a succeeding foreign pass schedules the final action; with no clones,
destroying the only proxy runs no teardown, and discharging the pending
action then runs it once. -/
theorem deferred_action_extends_lifetime_witness :
    (cmLoadedCommand.InitialPass passOk demoImplFull ["x"]).finalActionScheduled
      = true ∧
    (destroyN 1 (cloneN 0 (World.scheduleFinal
      (World.create demoImplFull.hasDestructor)))).rc.teardownRuns = 0 ∧
    (World.dischargeFinal (destroyN 1 (cloneN 0 (World.scheduleFinal
      (World.create demoImplFull.hasDestructor))))).rc.teardownRuns = 1 := by
  have h := deferred_action_extends_lifetime passOk demoImplFull ["x"] 0
    (by decide)
  exact ⟨by decide, h.2.2.1, by have h2 := h.2.2.2.2.2; simpa using h2⟩

end LoadCommand
